import Mathlib

/-!
Watchdog / process supervision: shallow embedding and verified properties.

Embedding of `src/process.cpp` (the worker) and `src/watchdog.cpp` (the
supervisor).

* `pid_t` values are `Int`; worker numbers (`int i`, `int j`, `int x`, always
  non-negative in the source) and `numProcess` are `Nat`.
* bytes are `Nat` (ASCII codes).
* `fork()` is an environment call: its successive return values in the
  supervisor are given by a stream `env : Nat → Int`; the ghost field `forks`
  counts the calls made so far.  The branch `pid == 0` runs in the child, which
  calls `execvp`; the two argument pointers it passes, `processNo` and
  `watchdogNo`, come from `to_string(..).c_str()` of temporaries that are
  destroyed at the end of the statement creating them, so they are recorded as
  dangling pointers (`CString.dangling`).
* `wait(&status)` is an environment call as well; its result and
  `WEXITSTATUS(status)` form an `Event`.
* the effects of the supervisor visible outside (signals sent, children
  created, records written to the pipe) and its registry updates are collected,
  in source order, in a list of `Action`s.  Output to the log files is not
  modelled.
-/

/-! ## process.cpp -/

namespace Process

/-- The two kinds of line the worker appends to `process_output`. -/
inductive LogLine where
  /-- The line `P<processNo> received signal <signalNo>`. -/
  | receivedSignal (processNo : Int) (signalNo : Int)
  /-- The line `P<processNo> received signal 15, terminating gracefully`. -/
  | terminating (processNo : Int)
  deriving DecidableEq, Repr

/-- The globals of `process.cpp` read by the handler. -/
structure Globals where
  processNo : Int
  watchdogPid : Int
  deriving DecidableEq, Repr

/-- What one run of the handler does: the lines logged and, when `exit(c)` is
called, the code `c`; `exit = none` means the handler returns to the sleep loop. -/
structure Outcome where
  log : List LogLine
  exit : Option Nat
  deriving DecidableEq, Repr

/-- The function `signalHandler(signalNo, siginfo, context)` of `process.cpp`
(lines 32-64), with `sender_pid = siginfo->si_pid`. -/
def signalHandler (g : Globals) (signalNo : Int) (sender_pid : Int) : Outcome :=
  if signalNo ≠ 15 then
    { log := [LogLine.receivedSignal g.processNo signalNo], exit := none }
  else
    if sender_pid = g.watchdogPid then
      { log := [LogLine.terminating g.processNo], exit := some 1 }
    else
      { log := [LogLine.terminating g.processNo], exit := some 0 }

end Process

/-! ## watchdog.cpp -/

namespace Watchdog

/-! ### The 30-byte pipe record -/

/-- Decimal digits (ASCII) of a natural number, most significant first; `fuel`
bounds the number of digits produced. -/
def decimalCore : Nat → Nat → List Nat → List Nat
  | 0, _, ds => ds
  | fuel + 1, n, ds =>
    if n / 10 = 0 then (48 + n % 10) :: ds
    else decimalCore fuel (n / 10) ((48 + n % 10) :: ds)

/-- Decimal representation of a natural number as ASCII codes. -/
def decimal (n : Nat) : List Nat := decimalCore (n + 1) n []

/-- The library function `std::to_string(int)`: optional minus sign (45), then
the decimal digits. -/
def to_string (x : Int) : List Nat :=
  if x < 0 then 45 :: decimal x.natAbs else decimal x.natAbs

/-- The string `"P" + to_string(i) + " " + to_string(pid) + "\n"` (lines 66, 99,
159, 197). -/
def messageText (i : Int) (pid : Int) : List Nat :=
  80 :: (to_string i ++ 32 :: (to_string pid ++ [10]))

/-- The call `strcpy(temp, str.c_str())`: the text and its NUL terminator
overwrite the front of the buffer, the rest of the buffer keeps its old
contents.  A result longer than `temp` means that the copy ran past the end of
the buffer. -/
def strcpy (temp : List Nat) (str : List Nat) : List Nat :=
  str ++ 0 :: temp.drop (str.length + 1)

/-- The bytes put on the pipe by `strcpy(temp, str.c_str()); write(namedPipe, temp, 30)`
for worker number `i` and process id `pid`. -/
def pipeRecord (temp : List Nat) (i : Int) (pid : Int) : List Nat :=
  (strcpy temp (messageText i pid)).take 30

/-! ### The map `pidMap` -/

/-- The call `pidMap.find(pid)` on a `std::map<pid_t, int>` kept as an
association list with at most one entry per key. -/
def find : List (Int × Nat) → Int → Option Nat
  | [], _ => none
  | (k, v) :: m, pid => if k = pid then some v else find m pid

/-- The call `pidMap.insert({pid, i})`: adds the entry only when the key is not
yet present (an existing entry is kept as it is). -/
def insert (m : List (Int × Nat)) (pid : Int) (i : Nat) : List (Int × Nat) :=
  match find m pid with
  | some _ => m
  | none => m ++ [(pid, i)]

/-- The expression `pidMap[pid]`: the value stored for `pid`; when the key is
absent an entry with the value `0` is created first. -/
def index (m : List (Int × Nat)) (pid : Int) : Nat × List (Int × Nat) :=
  match find m pid with
  | some v => (v, m)
  | none => (0, m ++ [(pid, 0)])

/-! ### State and actions -/

/-- The variables of the supervisor that live across statements. -/
structure State where
  /-- Global `numProcess`. -/
  numProcess : Nat
  /-- Global `watchdogPid`. -/
  watchdogPid : Int
  /-- Local `char temp[30]`. -/
  temp : List Nat
  /-- Local `pid_t pidList[numProcess+1]`. -/
  pidList : List Int
  /-- Global `pidMap`. -/
  pidMap : List (Int × Nat)
  /-- Ghost: number of calls of `fork()` made so far. -/
  forks : Nat
  deriving DecidableEq, Repr

/-- A `char*` passed to `execvp`. -/
inductive CString where
  /-- A pointer to a live NUL-terminated string with the text `text`. -/
  | live (text : List Nat)
  /-- A pointer into the buffer of a `std::string` that has been destroyed;
  `text` is what that string held.  What is read through the pointer is
  undefined. -/
  | dangling (text : List Nat)
  deriving DecidableEq, Repr

/-- The steps of the supervisor recorded in a trace. -/
inductive Action where
  /-- The call `kill(pid, SIGTERM)`. -/
  | kill (pid : Int)
  /-- The call `fork()` made while the worker number at hand (`i`, `j` or `x`)
  is `index`, returning `pid` in the supervisor.  The child calls
  `execvp` with the arguments `./process`, `process_output`, `processNo`,
  `watchdogNo`, the last two being the pointers kept from
  `(char*) to_string(index).c_str()` and `(char*) to_string(watchdogPid).c_str()`. -/
  | fork (index : Nat) (processNo : CString) (watchdogNo : CString) (pid : Int)
  /-- The record for worker `index` with handle `pid` is copied into `temp` and
  the 30 bytes `bytes` are written to the pipe. -/
  | write (index : Nat) (pid : Int) (bytes : List Nat)
  /-- The assignment `pidList[index] = pid`. -/
  | setList (index : Nat) (pid : Int)
  /-- The call `pidMap.insert({pid, index})`. -/
  | insertMap (pid : Int) (index : Nat)
  /-- The evaluation of `pidMap[pid]`. -/
  | indexMap (pid : Int)
  deriving DecidableEq, Repr

/-- A termination event: the result of `wait(&status)` and `WEXITSTATUS(status)`. -/
structure Event where
  changedPid : Int
  exitStatus : Nat
  deriving DecidableEq, Repr

/-- One spawn block (the loop body of lines 87-109, the loop body of lines
149-168 and lines 187-206, which are the same code for the worker number `j`):
`fork`, write the record to the pipe, then `pidList[j] = pid` and
`pidMap.insert({pid, j})`.  In the child, `processNo` and `watchdogNo` are
assigned `c_str()` of the temporaries `to_string(j)` and
`to_string(watchdogPid)`, which no longer exist when `execvp` is called. -/
def spawn (env : Nat → Int) (j : Nat) (s : State) : State × List Action :=
  let pid := env s.forks
  let bytes := pipeRecord s.temp (j : Int) pid
  ({ s with
      forks := s.forks + 1
      temp := strcpy s.temp (messageText (j : Int) pid)
      pidList := s.pidList.set j pid
      pidMap := insert s.pidMap pid j },
   [Action.fork j (CString.dangling (to_string (j : Int)))
      (CString.dangling (to_string s.watchdogPid)) pid,
    Action.write j pid bytes, Action.setList j pid, Action.insertMap pid j])

/-- The loop `for (j = ...; j <= numProcess; j++)` around a spawn block, given
the list of the values `j` takes. -/
def spawnAll (env : Nat → Int) : List Nat → State → State × List Action
  | [], s => (s, [])
  | j :: js, s =>
    let r := spawn env j s
    let r' := spawnAll env js r.1
    (r'.1, r.2 ++ r'.2)

/-- The state before line 66 of `main`: `numProcess` read from the command
line, `pid = watchdogPid = getpid()`, `temp` with indeterminate contents
`temp0`, the map empty.  The array `pidList` is declared at line 79 with
indeterminate contents (here zeros); every element is written before it is
read. -/
def main_init (numProcess : Nat) (pid : Int) (temp0 : List Nat) : State :=
  { numProcess := numProcess
    watchdogPid := pid
    temp := temp0
    pidList := List.replicate (numProcess + 1) 0
    pidMap := []
    forks := 0 }

/-- Lines 45-110 of `main`: the record of the supervisor itself (`P0`) is
written to the pipe, then `pidList[0] = pid; pidMap.insert({pid, 0})`, then the
start-up loop `for (i = 1; i <= numProcess; i++)`. -/
def main_startup (env : Nat → Int) (numProcess : Nat) (pid : Int) (temp0 : List Nat) :
    State × List Action :=
  let s := main_init numProcess pid temp0
  let s0 : State :=
    { s with
        temp := strcpy s.temp (messageText 0 pid)
        pidList := s.pidList.set 0 pid
        pidMap := insert s.pidMap pid 0 }
  let r := spawnAll env (List.range' 1 numProcess) s0
  (r.1, [Action.write 0 pid (pipeRecord s.temp 0 pid), Action.setList 0 pid,
         Action.insertMap pid 0] ++ r.2)

/-- One iteration of the `while (true)` loop of `main` (lines 116-208) for the
termination event returned by `wait`.  The array is read with `getD` and
written with `set`; the positions used lie inside the array when it has
`numProcess + 1` elements, `numProcess ≥ 1` and the map holds worker numbers up
to `numProcess` only (outside these conditions the source reads or writes past
the array). -/
def main_loop (env : Nat → Int) (s : State) (ev : Event) : State × List Action :=
  if ev.changedPid = s.pidList.getD 1 0 then
    let kills := (List.range' 2 (s.numProcess - 1)).map
      fun i => Action.kill (s.pidList.getD i 0)
    let r := spawnAll env (List.range' 1 s.numProcess) s
    (r.1, kills ++ r.2)
  else if ev.exitStatus = 0 then
    let x := (index s.pidMap ev.changedPid).1
    let s1 : State := { s with pidMap := (index s.pidMap ev.changedPid).2 }
    let r := spawn env x s1
    (r.1, Action.indexMap ev.changedPid :: r.2)
  else
    (s, [])

/-- The event loop run on a finite list of termination events. -/
def run (env : Nat → Int) : State → List Event → State × List Action
  | s, [] => (s, [])
  | s, ev :: evs =>
    let r := main_loop env s ev
    let r' := run env r.1 evs
    (r'.1, r.2 ++ r'.2)

/-- The effect of one action on the state. -/
def Action.exec (s : State) : Action → State
  | Action.kill _ => s
  | Action.fork _ _ _ _ => { s with forks := s.forks + 1 }
  | Action.write i pid _ => { s with temp := strcpy s.temp (messageText (i : Int) pid) }
  | Action.setList i pid => { s with pidList := s.pidList.set i pid }
  | Action.insertMap pid i => { s with pidMap := insert s.pidMap pid i }
  | Action.indexMap pid => { s with pidMap := (index s.pidMap pid).2 }

/-- The state after a list of actions. -/
def replay (s : State) (tr : List Action) : State := tr.foldl Action.exec s

/-! ### Observations on traces and states -/

/-- The children created: the worker number the `fork` was made for and the
handle returned. -/
def Action.forkOf : Action → Option (Nat × Int)
  | Action.fork j _ _ pid => some (j, pid)
  | _ => none

/-- The argument pointers `processNo` and `watchdogNo` the children are started
with. -/
def Action.argvOf : Action → Option (CString × CString)
  | Action.fork _ p w _ => some (p, w)
  | _ => none

/-- The announcements written to the pipe: worker number and handle. -/
def Action.writeOf : Action → Option (Nat × Int)
  | Action.write i pid _ => some (i, pid)
  | _ => none

/-- The handles a termination signal was sent to. -/
def Action.killOf : Action → Option Int
  | Action.kill pid => some pid
  | _ => none

/-- The handles of the children created for the worker number `k`, in order. -/
def spawnedFor (k : Nat) (tr : List Action) : List Int :=
  (tr.filterMap Action.forkOf).filterMap fun x => if x.1 = k then some x.2 else none

/-- The registry holds `pid` for worker `i` in both directions: `pidMap`
resolves `pid` to `i` and `pidList[i]` is `pid`. -/
def recorded (s : State) (i : Nat) (pid : Int) : Bool :=
  decide (find s.pidMap pid = some i) && decide (s.pidList.get? i = some pid)

/-- Every announcement in the trace is made in a state whose registry already
holds the announced pair (the trace being run from the state `s`). -/
def publishedAfterRecorded : State → List Action → Bool
  | _, [] => true
  | s, Action.write i pid bytes :: tr =>
    recorded s i pid && publishedAfterRecorded (Action.exec s (Action.write i pid bytes)) tr
  | s, a :: tr => publishedAfterRecorded (Action.exec s a) tr

/-- Every announcement in the trace is directly followed by the two registry
updates for the announced pair: `pidList[i] = pid`, then
`pidMap.insert({pid, i})`. -/
def recordedRightAfterPublished : List Action → Bool
  | [] => true
  | Action.write i pid _ :: Action.setList i1 pid1 :: Action.insertMap pid2 i2 :: tr =>
    decide (i1 = i) && decide (pid1 = pid) && decide (pid2 = pid) && decide (i2 = i)
      && recordedRightAfterPublished tr
  | Action.write _ _ _ :: _ => false
  | _ :: tr => recordedRightAfterPublished tr

/-- The two directions of the registry agree on the worker numbers `0..numProcess`:
`pidList` has `numProcess + 1` elements and `pidMap[pidList[i]] == i` for each of
them. -/
def Agree (s : State) : Prop :=
  s.pidList.length = s.numProcess + 1 ∧
    ∀ i, i ≤ s.numProcess → find s.pidMap (s.pidList.getD i 0) = some i

instance (s : State) : Decidable (Agree s) := by
  unfold Agree
  infer_instance

/-- Every worker number stored in the map is at most `numProcess`. -/
def Bounded (s : State) : Prop :=
  ∀ q v, find s.pidMap q = some v → v ≤ s.numProcess

/-- No process id is handed out twice: the handles `fork` is still to return
are not keys of the map. -/
def NeverReused (env : Nat → Int) (s : State) : Prop :=
  ∀ n, s.forks ≤ n → find s.pidMap (env n) = none

/-- Every event of the list carries a handle that is a key of the map when the
event is processed (`wait` returns the process id of a child, and every child
created has been entered in the map). -/
def EventsRecorded (env : Nat → Int) : State → List Event → Prop
  | _, [] => True
  | s, ev :: evs =>
    (∃ k, find s.pidMap ev.changedPid = some k) ∧ EventsRecorded env (main_loop env s ev).1 evs

/-- A 32-bit signed integer. -/
def Int32 (x : Int) : Prop := -2 ^ 31 ≤ x ∧ x < 2 ^ 31

instance (x : Int) : Decidable (Int32 x) := by
  unfold Int32
  infer_instance

/-- A write action carries a well-formed record: 30 bytes that start with the
text for its worker number and handle, followed by a NUL. -/
def Action.recordOk : Action → Prop
  | Action.write i pid bytes =>
    bytes.length = 30 ∧ ∃ rest, bytes = messageText (i : Int) pid ++ 0 :: rest
  | _ => True

/-! ### Concrete executions -/

/-- An environment in which `fork` returns 101, 102, 103, ... -/
def freshPids : Nat → Int := fun n => 101 + n

/-- An environment in which `fork` returns 101, 102, 103, 104 and then 102 once
more: a process id is handed out again after the process that had it has
terminated and has been waited for. -/
def reusedPids : Nat → Int := fun n => if n = 4 then 102 else 101 + n

/-- An environment in which `fork` returns 101, 102, 103 and then 101 once more:
the process 101 has terminated and has been waited for before the fourth call. -/
def reapedPidReused : Nat → Int := fun n => if n = 3 then 101 else 101 + n

/-- An environment in which `fork` returns process ids between 101 and 1100. -/
def boundedPids : Nat → Int := fun n => 101 + (n % 1000 : Nat)

/-- Thirty bytes of buffer contents. -/
def zeros30 : List Nat := List.replicate 30 0

/-- Thirty bytes of buffer contents, all different from the NUL byte. -/
def sevens30 : List Nat := List.replicate 30 7


/-! ## Lemmas on the pipe record -/

theorem decimalCore_length_le (fuel : Nat) : ∀ (n : Nat) (ds : List Nat) (k : Nat),
    1 ≤ k → n < 10 ^ k → (decimalCore fuel n ds).length ≤ ds.length + k := by
  induction fuel with
  | zero => intro n ds k _ _; simp [decimalCore]
  | succ fuel ih =>
    intro n ds k hk hn
    unfold decimalCore
    split
    · simp; omega
    · rename_i h
      have hk2 : 2 ≤ k := by
        by_contra hlt
        have : k = 1 := by omega
        subst this
        omega
      have hn' : n / 10 < 10 ^ (k - 1) := by
        have : 10 ^ k = 10 ^ (k - 1) * 10 := by
          rw [← pow_succ]; congr 1; omega
        rw [this] at hn
        exact Nat.div_lt_of_lt_mul (by rw [Nat.mul_comm]; exact hn)
      have := ih (n / 10) ((48 + n % 10) :: ds) (k - 1) (by omega) hn'
      simp at this
      omega

theorem decimal_length_le (n : Nat) (h : n < 10 ^ 10) : (decimal n).length ≤ 10 := by
  have := decimalCore_length_le (n + 1) n [] 10 (by omega) h
  simpa [decimal] using this

/-- The digits produced by `decimal` are those of `Nat.digits 10`, most
significant first, as ASCII codes. -/
theorem decimalCore_eq_digits (fuel : Nat) : ∀ (n : Nat) (ds : List Nat),
    0 < n → n < fuel →
    decimalCore fuel n ds = ((Nat.digits 10 n).reverse.map fun d => 48 + d) ++ ds := by
  induction fuel with
  | zero => intro n ds _ h; omega
  | succ fuel ih =>
    intro n ds hpos hlt
    have hd : Nat.digits 10 n = (n % 10) :: Nat.digits 10 (n / 10) :=
      Nat.digits_def' (by omega) hpos
    unfold decimalCore
    split
    · rename_i h
      rw [hd, h]
      simp
    · rename_i h
      rw [ih (n / 10) _ (by omega) (by omega), hd]
      simp

theorem decimal_eq_digits (n : Nat) (h : 0 < n) :
    decimal n = (Nat.digits 10 n).reverse.map fun d => 48 + d := by
  simp [decimal, decimalCore_eq_digits (n + 1) n [] h (by omega)]

theorem to_string_length_le (x : Int) (hx : Int32 x) : (to_string x).length ≤ 11 := by
  obtain ⟨hlo, hhi⟩ := hx
  have hn : x.natAbs < 10 ^ 10 := by omega
  have := decimal_length_le x.natAbs hn
  unfold to_string
  split <;> simp <;> omega

theorem messageText_length_le (i pid : Int) (hi : Int32 i) (hp : Int32 pid) :
    (messageText i pid).length ≤ 25 := by
  have h1 := to_string_length_le i hi
  have h2 := to_string_length_le pid hp
  simp [messageText]
  omega

theorem strcpy_length (temp str : List Nat) (h : str.length + 1 ≤ temp.length) :
    (strcpy temp str).length = temp.length := by
  simp [strcpy]
  omega

/-! ## Lemmas on `pidMap` -/

theorem find_append (m m' : List (Int × Nat)) (pid : Int) :
    find (m ++ m') pid = (find m pid).or (find m' pid) := by
  induction m with
  | nil => simp [find]
  | cons kv m ih =>
    obtain ⟨k, v⟩ := kv
    by_cases h : k = pid <;> simp [find, h, ih]

theorem find_insert_self (m : List (Int × Nat)) (pid : Int) (i : Nat)
    (h : find m pid = none) : find (insert m pid i) pid = some i := by
  simp [insert, h, find_append, find]

theorem find_insert_of_some (m : List (Int × Nat)) (pid q : Int) (i v : Nat)
    (h : find m q = some v) : find (insert m pid i) q = some v := by
  unfold insert
  split
  · exact h
  · simp [find_append, h]

theorem find_insert_of_ne (m : List (Int × Nat)) (pid q : Int) (i : Nat)
    (h : pid ≠ q) : find (insert m pid i) q = find m q := by
  unfold insert
  split
  · rfl
  · simp [find_append, find, h]

theorem insert_of_none (m : List (Int × Nat)) (pid : Int) (i : Nat)
    (h : find m pid = none) : insert m pid i = m ++ [(pid, i)] := by
  simp [insert, h]

theorem index_of_some (m : List (Int × Nat)) (pid : Int) (v : Nat)
    (h : find m pid = some v) : index m pid = (v, m) := by
  simp [index, h]

/-! ## Lemmas on the spawn block and the spawn loop -/

@[simp] theorem spawn_numProcess (env : Nat → Int) (j : Nat) (s : State) :
    (spawn env j s).1.numProcess = s.numProcess := rfl

@[simp] theorem spawn_watchdogPid (env : Nat → Int) (j : Nat) (s : State) :
    (spawn env j s).1.watchdogPid = s.watchdogPid := rfl

@[simp] theorem spawn_forks (env : Nat → Int) (j : Nat) (s : State) :
    (spawn env j s).1.forks = s.forks + 1 := rfl

@[simp] theorem spawn_pidList (env : Nat → Int) (j : Nat) (s : State) :
    (spawn env j s).1.pidList = s.pidList.set j (env s.forks) := rfl

@[simp] theorem spawn_pidMap (env : Nat → Int) (j : Nat) (s : State) :
    (spawn env j s).1.pidMap = insert s.pidMap (env s.forks) j := rfl

@[simp] theorem spawn_temp (env : Nat → Int) (j : Nat) (s : State) :
    (spawn env j s).1.temp = strcpy s.temp (messageText (j : Int) (env s.forks)) := rfl

theorem spawn_trace (env : Nat → Int) (j : Nat) (s : State) :
    (spawn env j s).2 =
      [Action.fork j (CString.dangling (to_string (j : Int)))
         (CString.dangling (to_string s.watchdogPid)) (env s.forks),
       Action.write j (env s.forks) (pipeRecord s.temp (j : Int) (env s.forks)),
       Action.setList j (env s.forks), Action.insertMap (env s.forks) j] := rfl

theorem spawnAll_cons (env : Nat → Int) (j : Nat) (js : List Nat) (s : State) :
    spawnAll env (j :: js) s =
      ((spawnAll env js (spawn env j s).1).1,
       (spawn env j s).2 ++ (spawnAll env js (spawn env j s).1).2) := rfl

@[simp] theorem spawnAll_numProcess (env : Nat → Int) (js : List Nat) : ∀ s : State,
    (spawnAll env js s).1.numProcess = s.numProcess := by
  induction js with
  | nil => intro s; rfl
  | cons j js ih => intro s; rw [spawnAll_cons]; simp [ih]

@[simp] theorem spawnAll_watchdogPid (env : Nat → Int) (js : List Nat) : ∀ s : State,
    (spawnAll env js s).1.watchdogPid = s.watchdogPid := by
  induction js with
  | nil => intro s; rfl
  | cons j js ih => intro s; rw [spawnAll_cons]; simp [ih]

@[simp] theorem spawnAll_forks (env : Nat → Int) (js : List Nat) : ∀ s : State,
    (spawnAll env js s).1.forks = s.forks + js.length := by
  induction js with
  | nil => intro s; rfl
  | cons j js ih => intro s; rw [spawnAll_cons]; simp [ih]; omega

/-- The array after the loop over `a, a+1, ..., a+n-1`: these `n` elements hold
the `n` handles returned by `fork`, the others are untouched. -/
theorem spawnAll_pidList (env : Nat → Int) (n : Nat) : ∀ (a : Nat) (s : State),
    a + n ≤ s.pidList.length →
    (spawnAll env (List.range' a n) s).1.pidList =
      s.pidList.take a ++ (List.range n).map (fun t => env (s.forks + t))
        ++ s.pidList.drop (a + n) := by
  induction n with
  | zero => intro a s _; simp [spawnAll]
  | succ n ih =>
    intro a s h
    rw [List.range'_succ, spawnAll_cons, ih (a + 1) _ (by simp; omega)]
    simp only [spawn_pidList, spawn_forks, List.range_succ_eq_map, List.map_cons, List.map_map]
    have h1 : (s.pidList.set a (env s.forks)).take (a + 1) = s.pidList.take a ++ [env s.forks] := by
      rw [List.set_eq_take_append_cons_drop, if_pos (by omega), List.take_append_eq_append_take]
      have hl : (s.pidList.take a).length = a := by simp; omega
      simp [hl]
    have h2 : (s.pidList.set a (env s.forks)).drop (a + 1 + n) = s.pidList.drop (a + (n + 1)) := by
      rw [List.drop_set_of_lt _ _ (by omega)]
      congr 1; omega
    rw [h1, h2]
    simp [Function.comp_def, Nat.add_assoc, Nat.add_comm 1]

theorem spawnAll_fork (env : Nat → Int) (n : Nat) : ∀ (a : Nat) (s : State),
    (spawnAll env (List.range' a n) s).2.filterMap Action.forkOf =
      (List.range n).map (fun t => (a + t, env (s.forks + t))) := by
  induction n with
  | zero => intro a s; simp [spawnAll]
  | succ n ih =>
    intro a s
    rw [List.range'_succ, spawnAll_cons]
    simp [List.filterMap_append, ih, spawn_trace, Action.forkOf, List.range_succ_eq_map,
      Function.comp_def, Nat.add_assoc, Nat.add_comm 1]

theorem spawnAll_write (env : Nat → Int) (n : Nat) : ∀ (a : Nat) (s : State),
    (spawnAll env (List.range' a n) s).2.filterMap Action.writeOf =
      (List.range n).map (fun t => (a + t, env (s.forks + t))) := by
  induction n with
  | zero => intro a s; simp [spawnAll]
  | succ n ih =>
    intro a s
    rw [List.range'_succ, spawnAll_cons]
    simp [List.filterMap_append, ih, spawn_trace, Action.writeOf, List.range_succ_eq_map,
      Function.comp_def, Nat.add_assoc, Nat.add_comm 1]

/-- Every child created in the loop is started with two dangling argument
pointers. -/
theorem spawnAll_argv (env : Nat → Int) (js : List Nat) : ∀ (s : State),
    (spawnAll env js s).2.filterMap Action.argvOf =
      js.map (fun j => (CString.dangling (to_string (j : Int)),
        CString.dangling (to_string s.watchdogPid))) := by
  induction js with
  | nil => intro s; simp [spawnAll]
  | cons j js ih =>
    intro s
    rw [spawnAll_cons]
    simp [List.filterMap_append, ih, spawn_trace, Action.argvOf]

theorem spawnAll_kill (env : Nat → Int) (js : List Nat) : ∀ (s : State),
    (spawnAll env js s).2.filterMap Action.killOf = [] := by
  induction js with
  | nil => intro s; simp [spawnAll]
  | cons j js ih =>
    intro s
    rw [spawnAll_cons]
    simp [List.filterMap_append, ih, spawn_trace, Action.killOf]


theorem spawnAll_find_some (env : Nat → Int) (js : List Nat) : ∀ (s : State) (q : Int) (v : Nat),
    find s.pidMap q = some v → find (spawnAll env js s).1.pidMap q = some v := by
  induction js with
  | nil => intro s q v h; exact h
  | cons j js ih =>
    intro s q v h
    rw [spawnAll_cons]
    exact ih _ q v (by simpa using find_insert_of_some _ _ _ _ _ h)

theorem find_insert_isSome (m : List (Int × Nat)) (pid : Int) (i : Nat) :
    ∃ v, find (insert m pid i) pid = some v := by
  cases h : find m pid with
  | none => exact ⟨i, find_insert_self m pid i h⟩
  | some v => exact ⟨v, find_insert_of_some m pid pid i v h⟩

/-- Every handle returned by `fork` during the loop is a key of the map
afterwards. -/
theorem spawnAll_find_isSome (env : Nat → Int) (n : Nat) : ∀ (a : Nat) (s : State) (t : Nat),
    t < n → ∃ v, find (spawnAll env (List.range' a n) s).1.pidMap (env (s.forks + t)) = some v := by
  induction n with
  | zero => intro a s t h; omega
  | succ n ih =>
    intro a s t h
    rw [List.range'_succ, spawnAll_cons]
    cases t with
    | zero =>
      obtain ⟨v, hv⟩ := find_insert_isSome s.pidMap (env s.forks) a
      exact ⟨v, spawnAll_find_some env _ _ _ v (by simpa using hv)⟩
    | succ t =>
      obtain ⟨v, hv⟩ := ih (a + 1) (spawn env a s).1 t (by omega)
      refine ⟨v, ?_⟩
      rw [← hv]
      simp [Nat.add_assoc, Nat.add_comm 1]

/-- A handle returned by `fork` during the loop that was not a key of the map
before and differs from the handles returned earlier in the loop is resolved
to its worker number afterwards. -/
theorem spawnAll_find_fresh (env : Nat → Int) (n : Nat) : ∀ (a : Nat) (s : State) (t : Nat),
    t < n → find s.pidMap (env (s.forks + t)) = none →
    (∀ u, u < t → env (s.forks + u) ≠ env (s.forks + t)) →
    find (spawnAll env (List.range' a n) s).1.pidMap (env (s.forks + t)) = some (a + t) := by
  induction n with
  | zero => intro a s t h; omega
  | succ n ih =>
    intro a s t h hnone hne
    rw [List.range'_succ, spawnAll_cons]
    cases t with
    | zero =>
      exact spawnAll_find_some env _ _ _ _ (by simpa using find_insert_self _ _ a hnone)
    | succ t =>
      have h0 : env s.forks ≠ env (s.forks + (t + 1)) := by simpa using hne 0 (by omega)
      have := ih (a + 1) (spawn env a s).1 t (by omega)
        (by
          simp only [spawn_pidMap, spawn_forks]
          rw [Nat.add_assoc, Nat.add_comm 1, find_insert_of_ne _ _ _ _ h0]
          exact hnone)
        (by
          intro u hu
          have := hne (u + 1) (by omega)
          simpa [Nat.add_assoc, Nat.add_comm 1] using this)
      simpa [Nat.add_assoc, Nat.add_comm 1, Nat.add_left_comm] using this

/-- The map after the loop when every handle returned by `fork` is new: one
entry is appended per iteration. -/
theorem spawnAll_pidMap_fresh (env : Nat → Int) (n : Nat) : ∀ (a : Nat) (s : State),
    (∀ t, t < n → find s.pidMap (env (s.forks + t)) = none) →
    (∀ u t, u < t → t < n → env (s.forks + u) ≠ env (s.forks + t)) →
    (spawnAll env (List.range' a n) s).1.pidMap =
      s.pidMap ++ (List.range n).map (fun t => (env (s.forks + t), a + t)) := by
  induction n with
  | zero => intro a s _ _; simp [spawnAll]
  | succ n ih =>
    intro a s hnone hne
    rw [List.range'_succ, spawnAll_cons, ih (a + 1)]
    · simp only [spawn_pidMap, spawn_forks]
      rw [insert_of_none _ _ _ (by simpa using hnone 0 (by omega))]
      simp [List.range_succ_eq_map, Function.comp_def, Nat.add_assoc, Nat.add_comm 1,
        Nat.add_left_comm]
    · intro t ht
      simp only [spawn_pidMap, spawn_forks]
      have h0 : env s.forks ≠ env (s.forks + (t + 1)) := by
        simpa using hne 0 (t + 1) (by omega) (by omega)
      rw [Nat.add_assoc, Nat.add_comm 1, find_insert_of_ne _ _ _ _ h0]
      exact hnone (t + 1) (by omega)
    · intro u t hut ht
      have := hne (u + 1) (t + 1) (by omega) (by omega)
      simpa [Nat.add_assoc, Nat.add_comm 1] using this

/-! ## The trace and the state -/

theorem replay_append (s : State) (tr tr' : List Action) :
    replay s (tr ++ tr') = replay (replay s tr) tr' := by
  simp [replay, List.foldl_append]

theorem replay_spawn (env : Nat → Int) (j : Nat) (s : State) :
    replay s (spawn env j s).2 = (spawn env j s).1 := rfl

theorem replay_spawnAll (env : Nat → Int) (js : List Nat) : ∀ s : State,
    replay s (spawnAll env js s).2 = (spawnAll env js s).1 := by
  induction js with
  | nil => intro s; rfl
  | cons j js ih => intro s; rw [spawnAll_cons, replay_append, replay_spawn, ih]

theorem replay_kills (s : State) (f : Nat → Int) (l : List Nat) :
    replay s (l.map fun i => Action.kill (f i)) = s := by
  induction l with
  | nil => rfl
  | cons p l ih => simpa [replay, Action.exec] using ih

/-- The registry updates listed in the trace of the start-up are the updates
made: replaying the trace from the initial state gives the state reached. -/
theorem replay_main_startup (env : Nat → Int) (N : Nat) (pid : Int) (temp0 : List Nat) :
    replay (main_init N pid temp0) (main_startup env N pid temp0).2 =
      (main_startup env N pid temp0).1 := by
  unfold main_startup
  simp only []
  rw [replay_append]
  exact replay_spawnAll env _ _

/-- The same for one iteration of the event loop. -/
theorem replay_main_loop (env : Nat → Int) (s : State) (ev : Event) :
    replay s (main_loop env s ev).2 = (main_loop env s ev).1 := by
  unfold main_loop
  split
  · simp only []
    rw [replay_append, replay_kills]
    exact replay_spawnAll env _ _
  · split
    · exact replay_spawn env _ _
    · rfl

theorem recordedRightAfterPublished_kills (f : Nat → Int) (l : List Nat) (tr : List Action) :
    recordedRightAfterPublished ((l.map fun i => Action.kill (f i)) ++ tr) =
      recordedRightAfterPublished tr := by
  induction l with
  | nil => rfl
  | cons p l ih => simpa [recordedRightAfterPublished] using ih

theorem recordedRightAfterPublished_spawnAll (env : Nat → Int) (js : List Nat) : ∀ s : State,
    recordedRightAfterPublished (spawnAll env js s).2 = true := by
  induction js with
  | nil => intro s; rfl
  | cons j js ih =>
    intro s
    rw [spawnAll_cons, spawn_trace]
    simpa [recordedRightAfterPublished] using ih _

end Watchdog

/-! ## The claims -/

namespace Process

/-- C4 (worker signal classification).  For every signal number and sender:
a signal other than 15 is only logged and the handler returns (no exit);
signal 15 from the supervisor id given at start exits with code 1; signal 15
from any other sender exits with code 0.  Hence the handler exits exactly when
the signal is 15. -/
theorem signalHandler_classification (g : Globals) (signalNo sender_pid : Int) :
    (signalNo ≠ 15 →
      signalHandler g signalNo sender_pid =
        ⟨[LogLine.receivedSignal g.processNo signalNo], none⟩) ∧
    (signalNo = 15 → sender_pid = g.watchdogPid →
      signalHandler g signalNo sender_pid = ⟨[LogLine.terminating g.processNo], some 1⟩) ∧
    (signalNo = 15 → sender_pid ≠ g.watchdogPid →
      signalHandler g signalNo sender_pid = ⟨[LogLine.terminating g.processNo], some 0⟩) ∧
    ((signalHandler g signalNo sender_pid).exit ≠ none ↔ signalNo = 15) := by
  unfold signalHandler
  refine ⟨?_, ?_, ?_, ?_⟩
  · intro h; simp [h]
  · intro h h'; simp [h, h']
  · intro h h'; simp [h, h']
  · by_cases h : signalNo = 15 <;> by_cases h' : sender_pid = g.watchdogPid <;> simp [h, h']

/-- Worker 2 started with supervisor id 100: signal 15 from 100 exits with 1,
signal 15 from 77 exits with 0, signal 2 from 100 does not exit. -/
theorem signalHandler_classification_witness :
    (signalHandler ⟨2, 100⟩ 15 100).exit = some 1 ∧
    (signalHandler ⟨2, 100⟩ 15 77).exit = some 0 ∧
    (signalHandler ⟨2, 100⟩ 2 100).exit = none :=
  ⟨congrArg Outcome.exit
      ((signalHandler_classification ⟨2, 100⟩ 15 100).2.1 (by decide) (by decide)),
   congrArg Outcome.exit
      ((signalHandler_classification ⟨2, 100⟩ 15 77).2.2.1 (by decide) (by decide)),
   congrArg Outcome.exit ((signalHandler_classification ⟨2, 100⟩ 2 100).1 (by decide))⟩

end Process

namespace Watchdog

theorem pipeRecord_spec (temp : List Nat) (i pid : Int) (htemp : temp.length = 30)
    (hi : Int32 i) (hp : Int32 pid) :
    (messageText i pid).length + 1 ≤ 30 ∧
    (strcpy temp (messageText i pid)).length = 30 ∧
    (pipeRecord temp i pid).length = 30 ∧
    pipeRecord temp i pid =
      80 :: (to_string i ++ 32 :: (to_string pid ++
        10 :: 0 :: temp.drop ((messageText i pid).length + 1))) := by
  have hlen := messageText_length_le i pid hi hp
  have hs := strcpy_length temp (messageText i pid) (by omega)
  refine ⟨by omega, by omega, ?_, ?_⟩
  · simp [pipeRecord, hs, htemp]
  · unfold pipeRecord
    rw [List.take_of_length_le (by omega)]
    simp [strcpy, messageText]


theorem pipeRecord_ok (temp : List Nat) (i : Nat) (pid : Int) (htemp : temp.length = 30)
    (hi : i < 2 ^ 31) (hp : Int32 pid) :
    (strcpy temp (messageText (i : Int) pid)).length = 30 ∧
    Action.recordOk (Action.write i pid (pipeRecord temp (i : Int) pid)) := by
  have hI : Int32 (i : Int) := ⟨by omega, by omega⟩
  have hlen := messageText_length_le (i : Int) pid hI hp
  have hs := strcpy_length temp (messageText (i : Int) pid) (by omega)
  refine ⟨by omega, ?_, temp.drop ((messageText (i : Int) pid).length + 1), ?_⟩
  · simp [pipeRecord, hs, htemp]
  · unfold pipeRecord
    rw [List.take_of_length_le (by omega)]
    rfl

theorem spawnAll_recordOk (env : Nat → Int) (henv : ∀ n, Int32 (env n)) (js : List Nat) :
    ∀ s : State, s.temp.length = 30 → (∀ j ∈ js, j < 2 ^ 31) →
      (spawnAll env js s).1.temp.length = 30 ∧
      ∀ a ∈ (spawnAll env js s).2, Action.recordOk a := by
  induction js with
  | nil => intro s h _; exact ⟨h, by simp [spawnAll]⟩
  | cons j js ih =>
    intro s h hjs
    have hj := pipeRecord_ok s.temp j (env s.forks) h (hjs j (by simp)) (henv _)
    have := ih (spawn env j s).1 (by simpa using hj.1) (fun i hi => hjs i (by simp [hi]))
    rw [spawnAll_cons]
    refine ⟨this.1, ?_⟩
    intro a ha
    rcases List.mem_append.1 ha with ha | ha
    · rw [spawn_trace] at ha
      simp only [List.mem_cons, List.mem_singleton, List.not_mem_nil, or_false] at ha
      rcases ha with rfl | rfl | rfl | rfl
      · trivial
      · exact hj.2
      · trivial
      · trivial
    · exact this.2 a ha

/-- Every record the supervisor writes during start-up is well formed and the
buffer keeps its 30 bytes, for 32-bit process ids and a pool size below
`2 ^ 31`. -/
theorem main_startup_recordOk (env : Nat → Int) (henv : ∀ n, Int32 (env n)) (N : Nat)
    (pid : Int) (temp0 : List Nat) (hN : N < 2 ^ 31) (hpid : Int32 pid)
    (htemp : temp0.length = 30) :
    (main_startup env N pid temp0).1.temp.length = 30 ∧
    ∀ a ∈ (main_startup env N pid temp0).2, Action.recordOk a := by
  have h0 := pipeRecord_ok temp0 0 pid htemp (by decide) hpid
  have := spawnAll_recordOk env henv (List.range' 1 N)
    { main_init N pid temp0 with
        temp := strcpy temp0 (messageText 0 pid)
        pidList := (List.replicate (N + 1) 0).set 0 pid
        pidMap := [(pid, 0)] } (by simpa using h0.1)
    (by intro j hj; simp [List.mem_range'] at hj; omega)
  refine ⟨this.1, ?_⟩
  intro a ha
  unfold main_startup at ha
  simp only [List.cons_append, List.nil_append, List.mem_cons] at ha
  rcases ha with rfl | rfl | rfl | ha
  · exact h0.2
  · trivial
  · trivial
  · exact this.2 a ha

/-- Every record the supervisor writes in one iteration of the event loop is
well formed and the buffer keeps its 30 bytes, for 32-bit process ids and
worker numbers below `2 ^ 31`. -/
theorem main_loop_recordOk (env : Nat → Int) (henv : ∀ n, Int32 (env n)) (s : State)
    (ev : Event) (hN : s.numProcess < 2 ^ 31) (htemp : s.temp.length = 30)
    (hmap : ∀ q v, find s.pidMap q = some v → v < 2 ^ 31) :
    (main_loop env s ev).1.temp.length = 30 ∧
    ∀ a ∈ (main_loop env s ev).2, Action.recordOk a := by
  unfold main_loop
  split
  · have := spawnAll_recordOk env henv (List.range' 1 s.numProcess) s htemp
      (by intro j hj; simp [List.mem_range'] at hj; omega)
    refine ⟨this.1, ?_⟩
    intro a ha
    rcases List.mem_append.1 ha with ha | ha
    · obtain ⟨i, _, rfl⟩ := List.mem_map.1 ha
      trivial
    · exact this.2 a ha
  · split
    · have hx : (index s.pidMap ev.changedPid).1 < 2 ^ 31 := by
        unfold index
        split
        · rename_i v hv
          exact hmap _ v hv
        · show 0 < 2 ^ 31
          decide
      have hj := pipeRecord_ok s.temp (index s.pidMap ev.changedPid).1 (env s.forks) htemp hx
        (henv _)
      refine ⟨by simpa using hj.1, ?_⟩
      intro a ha
      simp only [spawn_trace, List.mem_cons, List.mem_singleton, List.not_mem_nil,
        or_false] at ha
      rcases ha with rfl | rfl | rfl | rfl | rfl
      · trivial
      · trivial
      · exact hj.2
      · trivial
      · trivial
    · exact ⟨htemp, by simp⟩


/-- The function `to_string` yields the decimal representation: a minus sign
for a negative number, then `0` for zero and otherwise the base-10 digits of
the absolute value (`Nat.digits`), most significant first, as ASCII codes. -/
theorem to_string_eq_digits (x : Int) :
    to_string x =
      (if x < 0 then [45] else []) ++
        (if x = 0 then [48] else (Nat.digits 10 x.natAbs).reverse.map fun d => 48 + d) := by
  unfold to_string
  by_cases h0 : x = 0
  · subst h0
    decide
  · have hpos : 0 < x.natAbs := Int.natAbs_pos.2 h0
    rw [decimal_eq_digits _ hpos]
    by_cases hneg : x < 0 <;> simp [hneg, h0]

/-- C9 (announcement record).  The decimal of a number is the text
`to_string` yields: a minus sign (45) for a negative number, then `0` (48) for
zero and otherwise the base-10 digits of the absolute value, most significant
first, each as the ASCII code `48 + d`.  For a 30-byte buffer, a 32-bit signed
worker number `i` and a 32-bit signed handle `pid`: the text `P<i> <pid>\n`
with its NUL terminator takes at most 30 bytes, the copy leaves the buffer at
30 bytes (it does not run past its end), and the record written is 30 bytes
long and consists of `P` (80), the decimal of `i`, a space (32), the decimal of
`pid`, a newline (10) and a NUL (0), followed by the old contents of the rest
of the buffer.  With 32-bit process ids, every record written by the
supervisor, in the start-up and in every iteration of the event loop, is such
a record of 30 bytes. -/
theorem announcement_record_fits :
    (∀ x : Int, to_string x =
      (if x < 0 then [45] else []) ++
        (if x = 0 then [48] else (Nat.digits 10 x.natAbs).reverse.map fun d => 48 + d)) ∧
    (∀ (temp : List Nat) (i pid : Int), temp.length = 30 →
      (-2 ^ 31 ≤ i ∧ i < 2 ^ 31) → (-2 ^ 31 ≤ pid ∧ pid < 2 ^ 31) →
      (messageText i pid).length + 1 ≤ 30 ∧
      (strcpy temp (messageText i pid)).length = 30 ∧
      (pipeRecord temp i pid).length = 30 ∧
      pipeRecord temp i pid =
        80 :: (to_string i ++ 32 :: (to_string pid ++
          10 :: 0 :: temp.drop ((to_string i).length + (to_string pid).length + 4)))) ∧
    (∀ (env : Nat → Int) (N : Nat) (pid : Int) (temp0 : List Nat),
      (∀ n, Int32 (env n)) → N < 2 ^ 31 → Int32 pid → temp0.length = 30 →
      (main_startup env N pid temp0).1.temp.length = 30 ∧
      ∀ a ∈ (main_startup env N pid temp0).2, Action.recordOk a) ∧
    (∀ (env : Nat → Int) (s : State) (ev : Event),
      (∀ n, Int32 (env n)) → s.numProcess < 2 ^ 31 → s.temp.length = 30 →
      (∀ q v, find s.pidMap q = some v → v < 2 ^ 31) →
      (main_loop env s ev).1.temp.length = 30 ∧
      ∀ a ∈ (main_loop env s ev).2, Action.recordOk a) := by
  refine ⟨to_string_eq_digits, ?_,
    fun env N pid temp0 henv hN hpid htemp =>
      main_startup_recordOk env henv N pid temp0 hN hpid htemp,
    fun env s ev henv hN htemp hmap => main_loop_recordOk env henv s ev hN htemp hmap⟩
  intro temp i pid htemp hi hp
  have h := pipeRecord_spec temp i pid htemp hi hp
  have hlen : (messageText i pid).length + 1 =
      (to_string i).length + (to_string pid).length + 4 := by
    simp [messageText]
    omega
  rw [← hlen]
  exact h

/-- Concrete records: the decimals of 4242, -17 and 0; the record for worker 3
with handle 4242 and the record for the smallest 32-bit worker number and
handle, each in a buffer that held thirty bytes 7; and the records written
when a pool of 3 workers is started by the supervisor 100. -/
theorem announcement_record_fits_witness :
    to_string 4242 = [52, 50, 52, 50] ∧
    to_string (-17) = [45, 49, 55] ∧
    to_string 0 = [48] ∧
    pipeRecord sevens30 3 4242 =
      [80, 51, 32, 52, 50, 52, 50, 10, 0, 7, 7, 7, 7, 7, 7, 7, 7, 7, 7, 7, 7, 7, 7, 7, 7, 7,
        7, 7, 7, 7] ∧
    pipeRecord sevens30 (-2147483648) (-2147483648) =
      [80, 45, 50, 49, 52, 55, 52, 56, 51, 54, 52, 56, 32, 45, 50, 49, 52, 55, 52, 56, 51,
        54, 52, 56, 10, 0, 7, 7, 7, 7] ∧
    (pipeRecord sevens30 (-2147483648) (-2147483648)).length = 30 ∧
    (∀ a ∈ (main_startup boundedPids 3 100 zeros30).2, Action.recordOk a) :=
  ⟨(announcement_record_fits.1 4242).trans (by norm_num),
   (announcement_record_fits.1 (-17)).trans (by norm_num),
   (announcement_record_fits.1 0).trans (by norm_num),
   (announcement_record_fits.2.1 sevens30 3 4242 (by decide) (by decide)
      (by decide)).2.2.2.trans (by decide),
   (announcement_record_fits.2.1 sevens30 (-2147483648) (-2147483648) (by decide) (by decide)
      (by decide)).2.2.2.trans (by decide),
   (announcement_record_fits.2.1 sevens30 (-2147483648) (-2147483648) (by decide) (by decide)
      (by decide)).2.2.1,
   (announcement_record_fits.2.2.1 boundedPids 3 100 zeros30
      (fun n => ⟨by simp only [boundedPids]; omega, by simp only [boundedPids]; omega⟩)
      (by decide) ⟨by decide, by decide⟩ (by decide)).2⟩


/-- After a mass restart the handle of worker 1 is the first handle returned by
`fork`. -/
theorem main_loop_restart_pidList (env : Nat → Int) (s : State) (ev : Event)
    (hlen : s.pidList.length = s.numProcess + 1)
    (hp : ev.changedPid = s.pidList.getD 1 0) :
    (main_loop env s ev).1.pidList =
      s.pidList.take 1 ++ (List.range s.numProcess).map (fun t => env (s.forks + t)) := by
  unfold main_loop
  rw [if_pos hp]
  simp only []
  rw [spawnAll_pidList env _ 1 s (by omega), List.drop_of_length_le (by omega)]
  simp

theorem main_loop_restart_first (env : Nat → Int) (s : State) (ev : Event)
    (hn : 1 ≤ s.numProcess) (hlen : s.pidList.length = s.numProcess + 1)
    (hp : ev.changedPid = s.pidList.getD 1 0) :
    (main_loop env s ev).1.pidList.getD 1 0 = env s.forks := by
  rw [main_loop_restart_pidList env s ev hlen hp]
  obtain ⟨n, hn'⟩ : ∃ n, s.numProcess = n + 1 := ⟨s.numProcess - 1, by omega⟩
  rw [hn', List.range_succ_eq_map]
  cases hpl : s.pidList with
  | nil => simp [hpl] at hlen
  | cons x l => simp

/-- C3 (suppression).  A termination event whose handle is not the current
handle of worker 1 (the worker whose death triggers the mass restart) and whose
exit code is 1 changes nothing: the state (both directions of the registry
included) is as before and no signal, spawn or announcement is made.  In
particular, after a mass restart from a state with `numProcess ≥ 1`, the
exit-code-1 event of the old handle of a worker `i` in `2..numProcess` is such a
no-op, the new handle of worker 1 being different from that old handle (which
has not been waited for when `fork` is called). -/
theorem main_loop_suppressed (env : Nat → Int) (s : State) :
    (∀ ev : Event, ev.changedPid ≠ s.pidList.getD 1 0 → ev.exitStatus = 1 →
      main_loop env s ev = (s, [])) ∧
    (∀ (ev0 : Event) (i : Nat), 1 ≤ s.numProcess → s.pidList.length = s.numProcess + 1 →
      ev0.changedPid = s.pidList.getD 1 0 → 2 ≤ i → i ≤ s.numProcess →
      env s.forks ≠ s.pidList.getD i 0 →
      main_loop env (main_loop env s ev0).1 ⟨s.pidList.getD i 0, 1⟩ =
        ((main_loop env s ev0).1, [])) := by
  have key : ∀ (s : State) (ev : Event), ev.changedPid ≠ s.pidList.getD 1 0 →
      ev.exitStatus = 1 → main_loop env s ev = (s, []) := by
    intro s ev hp hx
    unfold main_loop
    rw [if_neg hp, if_neg (by omega)]
  refine ⟨key s, ?_⟩
  intro ev0 i hn hlen hp _ _ hne
  apply key
  · rw [main_loop_restart_first env s ev0 hn hlen hp]
    exact fun h => hne h.symm
  · rfl

/-- Three workers 101, 102, 103 under the supervisor 100: the event (102, exit
code 1) is ignored, and so is the event (103, exit code 1) after the mass
restart caused by the death of 101. -/
theorem main_loop_suppressed_witness :
    main_loop freshPids (main_startup freshPids 3 100 zeros30).1 ⟨102, 1⟩ =
      ((main_startup freshPids 3 100 zeros30).1, []) ∧
    main_loop freshPids
        (main_loop freshPids (main_startup freshPids 3 100 zeros30).1 ⟨101, 0⟩).1 ⟨103, 1⟩ =
      ((main_loop freshPids (main_startup freshPids 3 100 zeros30).1 ⟨101, 0⟩).1, []) :=
  ⟨(main_loop_suppressed freshPids (main_startup freshPids 3 100 zeros30).1).1 ⟨102, 1⟩
      (by decide) rfl,
   (main_loop_suppressed freshPids (main_startup freshPids 3 100 zeros30).1).2 ⟨101, 0⟩ 3
      (by decide) (by decide) (by decide) (by decide) (by decide) (by decide)⟩


/-- The mass restart, in general.  For a pool of `numProcess ≥ 1` workers and
a termination event whose handle is `pidList[1]`, whatever the exit status: the
trace starts with the termination signals, sent to `pidList[2]`, ...,
`pidList[numProcess]` in this order, and no signal is sent after them; then
`numProcess` calls of `fork` are made, for the worker numbers `1..numProcess`
in this order, each child being started with dangling argument pointers;
`numProcess` announcements are written, for the worker numbers
`1..numProcess` in this order, each with the handle `fork` returned for that
worker; afterwards `pidList` holds these new handles at `1..numProcess` and
every new handle is a key of `pidMap`, resolved to its worker number when it
was not a key before and differs from the handles returned earlier in the
loop; `pidList[0]` and every entry the map had before are unchanged. -/
theorem main_loop_mass_restart (env : Nat → Int) (s : State) (ev : Event)
    (_hn : 1 ≤ s.numProcess) (hlen : s.pidList.length = s.numProcess + 1)
    (hp : ev.changedPid = s.pidList.getD 1 0) :
    ∃ rest : List Action,
      (main_loop env s ev).2 =
        ((List.range' 2 (s.numProcess - 1)).map fun i => Action.kill (s.pidList.getD i 0))
          ++ rest ∧
      rest.filterMap Action.killOf = [] ∧
      rest.filterMap Action.forkOf =
        (List.range s.numProcess).map (fun t => (1 + t, env (s.forks + t))) ∧
      rest.filterMap Action.argvOf =
        (List.range' 1 s.numProcess).map (fun j => (CString.dangling (to_string (j : Int)),
          CString.dangling (to_string s.watchdogPid))) ∧
      rest.filterMap Action.writeOf =
        (List.range s.numProcess).map (fun t => (1 + t, env (s.forks + t))) ∧
      (main_loop env s ev).1.pidList =
        s.pidList.take 1 ++ (List.range s.numProcess).map (fun t => env (s.forks + t)) ∧
      (∀ t, t < s.numProcess →
        ∃ v, find (main_loop env s ev).1.pidMap (env (s.forks + t)) = some v) ∧
      (∀ t, t < s.numProcess → find s.pidMap (env (s.forks + t)) = none →
        (∀ u, u < t → env (s.forks + u) ≠ env (s.forks + t)) →
        find (main_loop env s ev).1.pidMap (env (s.forks + t)) = some (1 + t)) ∧
      (main_loop env s ev).1.pidList.getD 0 0 = s.pidList.getD 0 0 ∧
      (∀ q v, find s.pidMap q = some v → find (main_loop env s ev).1.pidMap q = some v) := by
  refine ⟨(spawnAll env (List.range' 1 s.numProcess) s).2, ?_, spawnAll_kill env _ s,
    spawnAll_fork env _ 1 s, spawnAll_argv env _ s, spawnAll_write env _ 1 s,
    main_loop_restart_pidList env s ev hlen hp, ?_, ?_, ?_, ?_⟩
  · unfold main_loop
    rw [if_pos hp]
  · intro t ht
    unfold main_loop
    rw [if_pos hp]
    exact spawnAll_find_isSome env _ 1 s t ht
  · intro t ht hnone hne
    unfold main_loop
    rw [if_pos hp]
    exact spawnAll_find_fresh env _ 1 s t ht hnone hne
  · rw [main_loop_restart_pidList env s ev hlen hp]
    cases hpl : s.pidList with
    | nil => simp [hpl] at hlen
    | cons x l => simp
  · intro q v hq
    unfold main_loop
    rw [if_pos hp]
    exact spawnAll_find_some env _ s q v hq

/-- C2 at a failing input.  Pool size 2 under the supervisor 100, start-up
handles 101 and 102.  Worker 1 (101) dies; the supervisor sends the signal to
102 and calls `fork` twice, which returns 103 for worker 1 and then 101, the id
of the process just waited for, for worker 2.  The two announcements (1, 103)
and (2, 101) are written and `pidList` becomes `[100, 103, 101]`, but the map
still resolves the new handle 101 of worker 2 to the worker number 1: the new
handle is not recorded for its worker.  Both children are started with
dangling argument pointers instead of the texts `1`, `2` and `100`. -/
theorem mass_restart_reused_pid :
    1 ≤ (main_startup reapedPidReused 2 100 zeros30).1.numProcess ∧
    (main_startup reapedPidReused 2 100 zeros30).1.pidList = [100, 101, 102] ∧
    (main_loop reapedPidReused (main_startup reapedPidReused 2 100 zeros30).1
      ⟨101, 0⟩).2.filterMap Action.killOf = [102] ∧
    (main_loop reapedPidReused (main_startup reapedPidReused 2 100 zeros30).1
      ⟨101, 0⟩).2.filterMap Action.forkOf = [(1, 103), (2, 101)] ∧
    (main_loop reapedPidReused (main_startup reapedPidReused 2 100 zeros30).1
      ⟨101, 0⟩).2.filterMap Action.writeOf = [(1, 103), (2, 101)] ∧
    (main_loop reapedPidReused (main_startup reapedPidReused 2 100 zeros30).1
      ⟨101, 0⟩).1.pidList = [100, 103, 101] ∧
    find (main_loop reapedPidReused (main_startup reapedPidReused 2 100 zeros30).1
      ⟨101, 0⟩).1.pidMap 101 = some 1 ∧
    (main_loop reapedPidReused (main_startup reapedPidReused 2 100 zeros30).1
      ⟨101, 0⟩).2.filterMap Action.argvOf =
      [(CString.dangling [49], CString.dangling [49, 48, 48]),
       (CString.dangling [50], CString.dangling [49, 48, 48])] := by
  refine ⟨?_, ?_, ?_, ?_, ?_, ?_, ?_, ?_⟩ <;> decide

/-- Three workers 101, 102, 103 under the supervisor 100 when worker 1 dies:
signals to 102 and 103, then children for the workers 1, 2, 3 and three
announcements. -/
theorem main_loop_mass_restart_witness :
    ∃ rest : List Action,
      (main_loop freshPids (main_startup freshPids 3 100 zeros30).1 ⟨101, 0⟩).2 =
        [Action.kill 102, Action.kill 103] ++ rest ∧
      rest.filterMap Action.killOf = [] ∧
      rest.filterMap Action.forkOf = [(1, 104), (2, 105), (3, 106)] ∧
      rest.filterMap Action.writeOf = [(1, 104), (2, 105), (3, 106)] ∧
      (main_loop freshPids (main_startup freshPids 3 100 zeros30).1 ⟨101, 0⟩).1.pidList =
        [100, 104, 105, 106] := by
  obtain ⟨rest, h1, h2, h3, _, h4, h5, _⟩ :=
    main_loop_mass_restart freshPids (main_startup freshPids 3 100 zeros30).1 ⟨101, 0⟩
      (by decide) (by decide) (by decide)
  exact ⟨rest, h1, h2, h3, h4, h5⟩


theorem main_startup_state (env : Nat → Int) (N : Nat) (pid : Int) (temp0 : List Nat) :
    (main_startup env N pid temp0).1 =
      (spawnAll env (List.range' 1 N)
        { main_init N pid temp0 with
            temp := strcpy temp0 (messageText 0 pid)
            pidList := (List.replicate (N + 1) 0).set 0 pid
            pidMap := [(pid, 0)] }).1 := rfl

theorem main_startup_numProcess (env : Nat → Int) (N : Nat) (pid : Int) (temp0 : List Nat) :
    (main_startup env N pid temp0).1.numProcess = N := by
  rw [main_startup_state]; simp [main_init]

theorem main_startup_pidList (env : Nat → Int) (N : Nat) (pid : Int) (temp0 : List Nat) :
    (main_startup env N pid temp0).1.pidList = pid :: (List.range N).map env := by
  have hle : 1 + N ≤ ({ main_init N pid temp0 with
          temp := strcpy temp0 (messageText 0 pid)
          pidList := (List.replicate (N + 1) 0).set 0 pid
          pidMap := [(pid, 0)] } : State).pidList.length := by
    simp [main_init]
    omega
  rw [main_startup_state, spawnAll_pidList env N 1 _ hle]
  simp [main_init, List.replicate_succ]
  omega

theorem main_startup_pidMap (env : Nat → Int) (N : Nat) (pid : Int) (temp0 : List Nat)
    (hdist : ∀ u t, u < t → t < N → env u ≠ env t) (hself : ∀ t, t < N → env t ≠ pid) :
    (main_startup env N pid temp0).1.pidMap =
      (pid, 0) :: (List.range N).map (fun t => (env t, 1 + t)) := by
  rw [main_startup_state, spawnAll_pidMap_fresh env N 1]
  · simp [main_init]
  · intro t ht
    simp [main_init, find, (hself t ht).symm]
  · intro u t hut ht
    simpa [main_init] using hdist u t hut ht

/-- The start-up leaves the two directions of the registry in agreement when
the handles returned by `fork` are pairwise distinct and different from the
supervisor id. -/
theorem main_startup_agree (env : Nat → Int) (N : Nat) (pid : Int) (temp0 : List Nat)
    (hdist : ∀ u t, u < t → t < N → env u ≠ env t) (hself : ∀ t, t < N → env t ≠ pid) :
    Agree (main_startup env N pid temp0).1 := by
  have hlist := main_startup_pidList env N pid temp0
  have hmap := main_startup_pidMap env N pid temp0 hdist hself
  have hnum := main_startup_numProcess env N pid temp0
  refine ⟨by simp [hlist, hnum], ?_⟩
  intro i hi
  rw [hnum] at hi
  cases i with
  | zero => simp [hlist, hmap, find]
  | succ t =>
    have ht : t < N := by omega
    have hget : (main_startup env N pid temp0).1.pidList.getD (t + 1) 0 = env t := by
      simp [hlist, List.getD_eq_getElem?_getD, ht]
    rw [hget, main_startup_state]
    have := spawnAll_find_fresh env N 1
      { main_init N pid temp0 with
          temp := strcpy temp0 (messageText 0 pid)
          pidList := (List.replicate (N + 1) 0).set 0 pid
          pidMap := [(pid, 0)] } t ht
      (by simp [main_init, find, (hself t ht).symm])
      (by intro u hu; simpa [main_init] using hdist u t hu ht)
    simpa [main_init, Nat.add_comm] using this

/-- The start-up, in general.  For every pool size `N`, with the handles
returned by `fork` pairwise distinct and different from the supervisor id
`pid`: exactly `N` calls of `fork` are made, for the worker numbers `1..N` in
this order, each child being started with dangling argument pointers; `N + 1`
announcements are written, for the worker numbers `0, 1, ..., N` in this order,
the first with the handle `pid`; no signal is sent; and on entering the event
loop `pidList` and `pidMap` have `N + 1` entries each, one per worker number
`0..N`, which agree. -/
theorem main_startup_spec (env : Nat → Int) (N : Nat) (pid : Int) (temp0 : List Nat)
    (hdist : ∀ u t, u < t → t < N → env u ≠ env t) (hself : ∀ t, t < N → env t ≠ pid) :
    (main_startup env N pid temp0).2.filterMap Action.forkOf =
      (List.range N).map (fun t => (1 + t, env t)) ∧
    (main_startup env N pid temp0).2.filterMap Action.argvOf =
      (List.range' 1 N).map (fun j => (CString.dangling (to_string (j : Int)),
        CString.dangling (to_string pid))) ∧
    (main_startup env N pid temp0).2.filterMap Action.writeOf =
      (0, pid) :: (List.range N).map (fun t => (1 + t, env t)) ∧
    (main_startup env N pid temp0).2.filterMap Action.killOf = [] ∧
    (main_startup env N pid temp0).1.pidList = pid :: (List.range N).map env ∧
    (main_startup env N pid temp0).1.pidMap =
      (pid, 0) :: (List.range N).map (fun t => (env t, 1 + t)) ∧
    (main_startup env N pid temp0).1.pidList.length = N + 1 ∧
    (main_startup env N pid temp0).1.pidMap.length = N + 1 ∧
    (main_startup env N pid temp0).1.numProcess = N ∧
    Agree (main_startup env N pid temp0).1 := by
  have hfork : (main_startup env N pid temp0).2.filterMap Action.forkOf =
      (List.range N).map (fun t => (1 + t, env t)) := by
    unfold main_startup
    simp [List.filterMap_append, Action.forkOf, spawnAll_fork, main_init]
  have hargv : (main_startup env N pid temp0).2.filterMap Action.argvOf =
      (List.range' 1 N).map (fun j => (CString.dangling (to_string (j : Int)),
        CString.dangling (to_string pid))) := by
    unfold main_startup
    simp [List.filterMap_append, Action.argvOf, spawnAll_argv, main_init]
  have hwrite : (main_startup env N pid temp0).2.filterMap Action.writeOf =
      (0, pid) :: (List.range N).map (fun t => (1 + t, env t)) := by
    unfold main_startup
    simp [List.filterMap_append, Action.writeOf, spawnAll_write, main_init]
  have hkill : (main_startup env N pid temp0).2.filterMap Action.killOf = [] := by
    unfold main_startup
    simp [List.filterMap_append, Action.killOf, spawnAll_kill]
  have hlist := main_startup_pidList env N pid temp0
  have hmap := main_startup_pidMap env N pid temp0 hdist hself
  exact ⟨hfork, hargv, hwrite, hkill, hlist, hmap, by simp [hlist], by simp [hmap],
    main_startup_numProcess env N pid temp0, main_startup_agree env N pid temp0 hdist hself⟩

/-- C8 at a failing input.  Pool size 3 under the supervisor 100 with `fork`
returning 101, 102, 103: three calls of `fork` are made, for the worker numbers
1, 2, 3; four announcements are written, for 0, 1, 2, 3; the registry gets four
entries.  But each child is started with `processNo` and `watchdogNo` pointing
into `std::string` temporaries that have been destroyed (the texts `1`, `2`,
`3` and `100` they held are gone): no child is given a live string with its
worker number or with the supervisor id. -/
theorem startup_children_get_dangling_arguments :
    (main_startup freshPids 3 100 zeros30).2.filterMap Action.forkOf =
      [(1, 101), (2, 102), (3, 103)] ∧
    (main_startup freshPids 3 100 zeros30).2.filterMap Action.argvOf =
      [(CString.dangling [49], CString.dangling [49, 48, 48]),
       (CString.dangling [50], CString.dangling [49, 48, 48]),
       (CString.dangling [51], CString.dangling [49, 48, 48])] ∧
    (∀ a ∈ (main_startup freshPids 3 100 zeros30).2.filterMap Action.argvOf,
      a.1 ≠ CString.live [49] ∧ a.1 ≠ CString.live [50] ∧ a.1 ≠ CString.live [51] ∧
        a.2 ≠ CString.live [49, 48, 48]) ∧
    (main_startup freshPids 3 100 zeros30).2.filterMap Action.writeOf =
      [(0, 100), (1, 101), (2, 102), (3, 103)] ∧
    (main_startup freshPids 3 100 zeros30).1.pidList = [100, 101, 102, 103] ∧
    (main_startup freshPids 3 100 zeros30).1.pidMap =
      [(100, 0), (101, 1), (102, 2), (103, 3)] := by
  refine ⟨?_, ?_, ?_, ?_, ?_, ?_⟩ <;> decide

/-- Pool size 3 under the supervisor 100 with `fork` returning 101, 102, 103:
children for the workers 1, 2, 3; four announcements, for 0, 1, 2, 3; four
registry entries. -/
theorem main_startup_spec_witness :
    (main_startup freshPids 3 100 zeros30).2.filterMap Action.forkOf =
      [(1, 101), (2, 102), (3, 103)] ∧
    (main_startup freshPids 3 100 zeros30).2.filterMap Action.writeOf =
      [(0, 100), (1, 101), (2, 102), (3, 103)] ∧
    (main_startup freshPids 3 100 zeros30).1.pidList.length = 3 + 1 ∧
    (main_startup freshPids 3 100 zeros30).1.pidMap.length = 3 + 1 :=
  have h := main_startup_spec freshPids 3 100 zeros30
    (by intro u t hut ht; simp only [freshPids]; omega)
    (by intro t ht; simp only [freshPids]; omega)
  ⟨h.1, h.2.2.1, h.2.2.2.2.2.2.1, h.2.2.2.2.2.2.2.1⟩


/-- C5, as stated, fails.  Pool size 2 under the supervisor 100, `fork`
returning 101, 102, ...: in the start-up, in the mass restart after the death
of worker 1 (event for 101) and in the individual restart of worker 2 (event
for 102 with exit code 0), an announcement is written while the registry does
not yet hold the announced pair. -/
theorem published_before_recorded :
    publishedAfterRecorded (main_init 2 100 zeros30)
      (main_startup freshPids 2 100 zeros30).2 = false ∧
    publishedAfterRecorded (main_startup freshPids 2 100 zeros30).1
      (main_loop freshPids (main_startup freshPids 2 100 zeros30).1 ⟨101, 0⟩).2 = false ∧
    publishedAfterRecorded (main_startup freshPids 2 100 zeros30).1
      (main_loop freshPids (main_startup freshPids 2 100 zeros30).1 ⟨102, 0⟩).2 = false := by
  refine ⟨?_, ?_, ?_⟩ <;> decide

/-- C5, amended.  In every execution (start-up, mass restart, individual
restart, for every environment, state and event) each announcement of a pair
`(k, h)` is directly followed by the two registry updates for that pair,
`pidList[k] = h` and then `pidMap.insert({h, k})`, with nothing in between: the
pair is recorded right after it is published. -/
theorem recorded_right_after_published (env : Nat → Int) :
    (∀ (N : Nat) (pid : Int) (temp0 : List Nat),
      recordedRightAfterPublished (main_startup env N pid temp0).2 = true) ∧
    (∀ (s : State) (ev : Event),
      recordedRightAfterPublished (main_loop env s ev).2 = true) := by
  constructor
  · intro N pid temp0
    unfold main_startup
    simpa [recordedRightAfterPublished] using recordedRightAfterPublished_spawnAll env _ _
  · intro s ev
    unfold main_loop
    split
    · simp only []
      rw [recordedRightAfterPublished_kills]
      exact recordedRightAfterPublished_spawnAll env _ _
    · split
      · simp [spawn_trace, recordedRightAfterPublished]
      · rfl

/-- C6, as stated, fails.  With the registry of the supervisor 100 and its
workers 101 and 102, the handle 555 is not recorded, yet `pidMap[555]` yields
the worker number 0 and the map gains the entry 555 -> 0; for the event (555,
exit code 0) the supervisor goes on to create a child for the worker number 0
(its argument pointers kept from the temporaries `to_string(0)` and
`to_string(100)`) and overwrites `pidList[0]`. -/
theorem unregistered_handle_resolves_to_zero :
    find (main_startup freshPids 2 100 zeros30).1.pidMap 555 = none ∧
    index (main_startup freshPids 2 100 zeros30).1.pidMap 555 =
      (0, [(100, 0), (101, 1), (102, 2), (555, 0)]) ∧
    (main_loop freshPids (main_startup freshPids 2 100 zeros30).1 ⟨555, 0⟩).2.filterMap
      Action.forkOf = [(0, 103)] ∧
    (main_loop freshPids (main_startup freshPids 2 100 zeros30).1 ⟨555, 0⟩).1.pidList =
      [103, 101, 102] ∧
    (main_loop freshPids (main_startup freshPids 2 100 zeros30).1 ⟨555, 0⟩).2.filterMap
      Action.argvOf = [(CString.dangling [48], CString.dangling [49, 48, 48])] := by
  refine ⟨?_, ?_, ?_, ?_, ?_⟩ <;> decide

/-- C6, amended.  Resolving a handle that is not recorded does not fail: the
expression `pidMap[h]` yields the worker number 0 and adds the entry `h -> 0` to
the map, after which `h` resolves to 0; the array `pidList` is not touched by
it. -/
theorem index_unregistered (s : State) (h : Int) (hnone : find s.pidMap h = none) :
    (index s.pidMap h).1 = 0 ∧
    (index s.pidMap h).2 = s.pidMap ++ [(h, 0)] ∧
    find (index s.pidMap h).2 h = some 0 ∧
    (Action.exec s (Action.indexMap h)).pidMap = s.pidMap ++ [(h, 0)] ∧
    (Action.exec s (Action.indexMap h)).pidList = s.pidList := by
  have hi : index s.pidMap h = (0, s.pidMap ++ [(h, 0)]) := by simp [index, hnone]
  refine ⟨by rw [hi], by rw [hi], ?_, ?_, rfl⟩
  · rw [hi]; simp [find_append, hnone, find]
  · simp [Action.exec, hi]

/-- The handle 555 in the registry of the supervisor 100 with the workers 101
and 102. -/
theorem index_unregistered_witness :
    (index (main_startup freshPids 2 100 zeros30).1.pidMap 555).1 = 0 ∧
    find (index (main_startup freshPids 2 100 zeros30).1.pidMap 555).2 555 = some 0 :=
  ⟨(index_unregistered (main_startup freshPids 2 100 zeros30).1 555 (by decide)).1,
   (index_unregistered (main_startup freshPids 2 100 zeros30).1 555 (by decide)).2.2.1⟩


/-- The individual restart, in full: for an event whose handle is not
`pidList[1]`, with exit status 0 and a handle the map resolves to `k`, one
child is created for the worker number `k` (its argument pointers kept from
the temporaries `to_string(k)` and `to_string(watchdogPid)`), one announcement
is written for
`(k, new handle)`, no signal is sent, `pidList[k]` is set to the new handle and
`pidMap.insert({new handle, k})` is called. -/
theorem main_loop_individual (env : Nat → Int) (s : State) (ev : Event) (k : Nat)
    (hp : ev.changedPid ≠ s.pidList.getD 1 0) (hx : ev.exitStatus = 0)
    (hk : find s.pidMap ev.changedPid = some k) :
    main_loop env s ev =
      ({ s with
          forks := s.forks + 1
          temp := strcpy s.temp (messageText (k : Int) (env s.forks))
          pidList := s.pidList.set k (env s.forks)
          pidMap := insert s.pidMap (env s.forks) k },
       [Action.indexMap ev.changedPid,
        Action.fork k (CString.dangling (to_string (k : Int)))
          (CString.dangling (to_string s.watchdogPid)) (env s.forks),
        Action.write k (env s.forks) (pipeRecord s.temp (k : Int) (env s.forks)),
        Action.setList k (env s.forks), Action.insertMap (env s.forks) k]) := by
  unfold main_loop
  rw [if_neg hp, if_pos hx, index_of_some _ _ _ hk]
  rfl

/-- The individual restart when the new handle is not yet a key of the map (or
is one for the same worker number): the registry then holds the new handle for
`k` in both directions, and the handles of the other worker numbers are as
before. -/
theorem main_loop_individual_recorded (env : Nat → Int) (s : State) (ev : Event) (k : Nat)
    (hp : ev.changedPid ≠ s.pidList.getD 1 0) (hx : ev.exitStatus = 0)
    (hk : find s.pidMap ev.changedPid = some k) (hlen : k < s.pidList.length)
    (hnew : find s.pidMap (env s.forks) = none ∨ find s.pidMap (env s.forks) = some k) :
    (main_loop env s ev).1.pidList.getD k 0 = env s.forks ∧
    find (main_loop env s ev).1.pidMap (env s.forks) = some k ∧
    (∀ j, j ≠ k → (main_loop env s ev).1.pidList.getD j 0 = s.pidList.getD j 0) := by
  rw [main_loop_individual env s ev k hp hx hk]
  refine ⟨?_, ?_, ?_⟩
  · simp [List.getD_eq_getElem?_getD, hlen]
  · rcases hnew with h | h
    · exact find_insert_self _ _ _ h
    · exact find_insert_of_some _ _ _ _ _ h
  · intro j hj
    simp [List.getD_eq_getElem?_getD, List.getElem?_set_ne (Ne.symm hj)]

/-- C1 at a failing input.  Pool size 3 under the supervisor 100, start-up
handles 101, 102, 103; worker 2 (102) has exited with code 0 and been
restarted as 104.  Now worker 3 (103) exits with code 0 and `fork` returns 102,
the id of the process that has terminated: one child is created for the worker
number 3 (its argument pointers kept from the temporaries `to_string(3)` and
`to_string(100)`) and announced as (3, 102), `pidList[3]` becomes 102, but the
map still resolves 102 to 2, not to 3. -/
theorem individual_restart_reused_pid :
    (run reusedPids (main_startup reusedPids 3 100 zeros30).1 [⟨102, 0⟩]).1.pidList =
      [100, 101, 104, 103] ∧
    find (run reusedPids (main_startup reusedPids 3 100 zeros30).1 [⟨102, 0⟩]).1.pidMap 103 =
      some 3 ∧
    (main_loop reusedPids
      (run reusedPids (main_startup reusedPids 3 100 zeros30).1 [⟨102, 0⟩]).1
      ⟨103, 0⟩).2.filterMap Action.forkOf = [(3, 102)] ∧
    (main_loop reusedPids
      (run reusedPids (main_startup reusedPids 3 100 zeros30).1 [⟨102, 0⟩]).1
      ⟨103, 0⟩).2.filterMap Action.writeOf = [(3, 102)] ∧
    (main_loop reusedPids
      (run reusedPids (main_startup reusedPids 3 100 zeros30).1 [⟨102, 0⟩]).1
      ⟨103, 0⟩).1.pidList = [100, 101, 104, 102] ∧
    find (main_loop reusedPids
      (run reusedPids (main_startup reusedPids 3 100 zeros30).1 [⟨102, 0⟩]).1
      ⟨103, 0⟩).1.pidMap 102 = some 2 ∧
    (main_loop reusedPids
      (run reusedPids (main_startup reusedPids 3 100 zeros30).1 [⟨102, 0⟩]).1
      ⟨103, 0⟩).2.filterMap Action.argvOf =
      [(CString.dangling [51], CString.dangling [49, 48, 48])] := by
  refine ⟨?_, ?_, ?_, ?_, ?_, ?_, ?_⟩ <;> decide

/-- One iteration of the event loop keeps the two directions of the registry
in agreement when the handles returned by `fork` are not keys of the map and
are pairwise distinct, for an event whose handle is recorded. -/
theorem main_loop_agree (env : Nat → Int) (s : State) (ev : Event) (k : Nat)
    (hn : 1 ≤ s.numProcess) (hA : Agree s)
    (hk : find s.pidMap ev.changedPid = some k) (hkN : k ≤ s.numProcess)
    (hfresh : ∀ t, t < s.numProcess → find s.pidMap (env (s.forks + t)) = none)
    (hdist : ∀ u t, u < t → t < s.numProcess → env (s.forks + u) ≠ env (s.forks + t)) :
    Agree (main_loop env s ev).1 ∧ (main_loop env s ev).1.numProcess = s.numProcess := by
  obtain ⟨hlen, hagree⟩ := hA
  by_cases hp : ev.changedPid = s.pidList.getD 1 0
  · have hl := main_loop_restart_pidList env s ev hlen hp
    have hnum : (main_loop env s ev).1.numProcess = s.numProcess := by
      unfold main_loop; rw [if_pos hp]; simp
    have hmap : (main_loop env s ev).1.pidMap =
        (spawnAll env (List.range' 1 s.numProcess) s).1.pidMap := by
      unfold main_loop; rw [if_pos hp]
    obtain ⟨x, l, hpl⟩ : ∃ x l, s.pidList = x :: l := by
      cases hpl : s.pidList with
      | nil => simp [hpl] at hlen
      | cons x l => exact ⟨x, l, rfl⟩
    refine ⟨⟨?_, ?_⟩, hnum⟩
    · rw [hl, hnum, hpl]; simp
    · intro i hi
      rw [hnum] at hi
      rw [hl, hmap]
      cases i with
      | zero =>
        have h0 := hagree 0 (by omega)
        rw [hpl] at h0 ⊢
        simp only [List.take_succ_cons, List.take_zero, List.cons_append, List.nil_append,
          List.getD_cons_zero] at h0 ⊢
        exact spawnAll_find_some env _ s x 0 h0
      | succ t =>
        have ht : t < s.numProcess := by omega
        have hget : (s.pidList.take 1 ++ (List.range s.numProcess).map
            (fun t => env (s.forks + t))).getD (t + 1) 0 = env (s.forks + t) := by
          rw [hpl]
          simp [List.getD_eq_getElem?_getD, ht]
        rw [hget]
        have := spawnAll_find_fresh env s.numProcess 1 s t ht (hfresh t ht)
          (fun u hu => hdist u t hu ht)
        simpa [Nat.add_comm] using this
  · by_cases hx : ev.exitStatus = 0
    · rw [main_loop_individual env s ev k hp hx hk]
      have hf := hfresh 0 (by omega)
      simp only [Nat.add_zero] at hf
      refine ⟨⟨by simpa using hlen, ?_⟩, rfl⟩
      intro i hi
      simp only at hi ⊢
      by_cases hik : i = k
      · subst hik
        have hil : i < s.pidList.length := by omega
        have : (s.pidList.set i (env s.forks)).getD i 0 = env s.forks := by
          simp [List.getD_eq_getElem?_getD, hil]
        rw [this]
        exact find_insert_self _ _ _ hf
      · have : (s.pidList.set k (env s.forks)).getD i 0 = s.pidList.getD i 0 := by
          simp [List.getD_eq_getElem?_getD, List.getElem?_set_ne (Ne.symm hik)]
        rw [this]
        exact find_insert_of_some _ _ _ _ _ (hagree i hi)
    · have : main_loop env s ev = (s, []) := by
        unfold main_loop
        rw [if_neg hp, if_neg hx]
      rw [this]
      exact ⟨⟨hlen, hagree⟩, rfl⟩

/-- C7 at a failing input.  Pool size 3 under the supervisor 100, start-up
handles 101, 102, 103, the registry in agreement.  Worker 2 (102) exits with
code 0 and is restarted as 104; then worker 3 (103) exits with code 0 and
`fork` returns 102, which is the handle of none of the workers then recorded
in `pidList`.  Afterwards `pidList[3]` is 102 while the map resolves 102 to 2:
the two directions of the registry do not agree. -/
theorem agree_broken_by_reused_pid :
    Agree (main_startup reusedPids 3 100 zeros30).1 ∧
    (run reusedPids (main_startup reusedPids 3 100 zeros30).1 [⟨102, 0⟩]).1.pidList =
      [100, 101, 104, 103] ∧
    reusedPids 4 ∉
      (run reusedPids (main_startup reusedPids 3 100 zeros30).1 [⟨102, 0⟩]).1.pidList ∧
    (run reusedPids (main_startup reusedPids 3 100 zeros30).1
      [⟨102, 0⟩, ⟨103, 0⟩]).1.pidList = [100, 101, 104, 102] ∧
    find (run reusedPids (main_startup reusedPids 3 100 zeros30).1
      [⟨102, 0⟩, ⟨103, 0⟩]).1.pidMap 102 = some 2 ∧
    ¬ Agree (run reusedPids (main_startup reusedPids 3 100 zeros30).1
      [⟨102, 0⟩, ⟨103, 0⟩]).1 := by
  refine ⟨by decide, by decide, by decide, by decide, by decide, ?_⟩
  intro h
  have h3 := h.2 3 (by decide)
  revert h3
  decide


/-! ## The registry when no process id is handed out twice -/

theorem find_insert_cases (m : List (Int × Nat)) (pid q : Int) (i v : Nat)
    (h : find (insert m pid i) q = some v) : find m q = some v ∨ v = i := by
  unfold insert at h
  split at h
  · exact Or.inl h
  · rw [find_append] at h
    cases hq : find m q with
    | some w => left; simpa [hq] using h
    | none =>
      right
      by_cases hpq : pid = q
      · simpa [hq, find, hpq] using h.symm
      · simp [hq, find, hpq] at h

theorem spawnAll_find_none (env : Nat → Int) (js : List Nat) : ∀ (s : State) (q : Int),
    find s.pidMap q = none → (∀ t, t < js.length → env (s.forks + t) ≠ q) →
    find (spawnAll env js s).1.pidMap q = none := by
  induction js with
  | nil => intro s q h _; exact h
  | cons j js ih =>
    intro s q h hne
    rw [spawnAll_cons]
    apply ih
    · simp only [spawn_pidMap]
      rw [find_insert_of_ne _ _ _ _ (by simpa using hne 0 (by simp))]
      exact h
    · intro t ht
      have := hne (t + 1) (by simpa using ht)
      simpa [Nat.add_assoc, Nat.add_comm 1] using this

theorem spawnAll_find_bound (env : Nat → Int) (js : List Nat) (B : Nat) : ∀ (s : State),
    (∀ j ∈ js, j ≤ B) → (∀ q v, find s.pidMap q = some v → v ≤ B) →
    ∀ q v, find (spawnAll env js s).1.pidMap q = some v → v ≤ B := by
  induction js with
  | nil => intro s _ h; exact h
  | cons j js ih =>
    intro s hjs h
    rw [spawnAll_cons]
    apply ih _ (fun i hi => hjs i (by simp [hi]))
    intro q v hq
    simp only [spawn_pidMap] at hq
    rcases find_insert_cases _ _ _ _ _ hq with hq | rfl
    · exact h q v hq
    · exact hjs v (by simp)

/-- One iteration of the event loop keeps the bound on the worker numbers in the
map and the property that the handles still to come are not keys of the map. -/
theorem main_loop_bounded_neverReused (env : Nat → Int) (hinj : Function.Injective env)
    (s : State) (ev : Event) (k : Nat) (hk : find s.pidMap ev.changedPid = some k)
    (hB : Bounded s) (hR : NeverReused env s) :
    Bounded (main_loop env s ev).1 ∧ NeverReused env (main_loop env s ev).1 := by
  by_cases hp : ev.changedPid = s.pidList.getD 1 0
  · have hst : (main_loop env s ev).1 = (spawnAll env (List.range' 1 s.numProcess) s).1 := by
      unfold main_loop; rw [if_pos hp]
    rw [hst]
    constructor
    · intro q v hq
      rw [spawnAll_numProcess]
      exact spawnAll_find_bound env _ s.numProcess s
        (by intro j hj; simp [List.mem_range'] at hj; omega) hB q v hq
    · intro n hn
      simp only [spawnAll_forks, List.length_range'] at hn
      apply spawnAll_find_none env _ s _ (hR n (by omega))
      intro t ht heq
      have := hinj heq
      simp only [List.length_range'] at ht
      omega
  · by_cases hx : ev.exitStatus = 0
    · rw [main_loop_individual env s ev k hp hx hk]
      constructor
      · intro q v hq
        simp only at hq ⊢
        rcases find_insert_cases _ _ _ _ _ hq with hq | rfl
        · exact hB q v hq
        · exact hB _ _ hk
      · intro n hn
        simp only at hn ⊢
        rw [find_insert_of_ne _ _ _ _ (fun heq => by have := hinj heq; omega)]
        exact hR n (by omega)
    · have : main_loop env s ev = (s, []) := by
        unfold main_loop
        rw [if_neg hp, if_neg hx]
      rw [this]
      exact ⟨hB, hR⟩

/-- When no process id is handed out twice, the two directions of the registry
agree in every state the event loop reaches, for events that carry recorded
handles. -/
theorem run_agree (env : Nat → Int) (hinj : Function.Injective env) :
    ∀ (evs : List Event) (s : State), 1 ≤ s.numProcess → Agree s → Bounded s →
      NeverReused env s → EventsRecorded env s evs → Agree (run env s evs).1 := by
  intro evs
  induction evs with
  | nil => intro s _ hA _ _ _; exact hA
  | cons ev evs ih =>
    intro s hn hA hB hR hE
    obtain ⟨⟨k, hk⟩, hE'⟩ := hE
    have h1 := main_loop_agree env s ev k hn hA hk (hB _ _ hk)
      (fun t _ => hR _ (by omega))
      (fun u t hut _ heq => by have := hinj heq; omega)
    have h2 := main_loop_bounded_neverReused env hinj s ev k hk hB hR
    exact ih (main_loop env s ev).1 (by rw [h1.2]; exact hn) h1.1 h2.1 h2.2 hE'

/-- The start-up establishes the three properties when the handles returned by
`fork` are pairwise distinct and different from the supervisor id. -/
theorem main_startup_invariants (env : Nat → Int) (hinj : Function.Injective env)
    (N : Nat) (pid : Int) (temp0 : List Nat) (hself : ∀ n, env n ≠ pid) :
    Agree (main_startup env N pid temp0).1 ∧ Bounded (main_startup env N pid temp0).1 ∧
    NeverReused env (main_startup env N pid temp0).1 := by
  refine ⟨main_startup_agree env N pid temp0
    (fun u t hut _ heq => by have := hinj heq; omega) (fun t _ => hself t), ?_, ?_⟩
  · intro q v hq
    rw [main_startup_numProcess]
    rw [main_startup_state] at hq
    refine spawnAll_find_bound env _ N _ (by intro j hj; simp [List.mem_range'] at hj; omega)
      ?_ q v hq
    intro q v hq
    simp only [main_init, find] at hq
    split at hq
    · simp at hq; omega
    · simp at hq
  · intro n hn
    rw [main_startup_state] at hn ⊢
    simp only [spawnAll_forks, List.length_range', main_init] at hn
    apply spawnAll_find_none
    · simp [main_init, find, (hself n).symm]
    · intro t ht heq
      have := hinj heq
      simp only [List.length_range', main_init] at ht this
      omega


/-- C10 (stale-handle restart).  There is an execution with pool size 2 and
handles that are all different (supervisor 100, `fork` returning 101, 102,
...): worker 2 has the start-up handle `a = 102` and exits with code 0, but the
death of worker 1 is processed first.  The mass restart sends the signal to
`a` only and gives worker 2 the new handle `b = 104`.  The event (`a`, exit
code 0) is then processed: `a` is not the current handle of worker 2 any more,
yet it is resolved to 2 and a third child `c = 105` is created for the worker
number 2 and becomes its current handle.  The children `b` and `c` both carry
the worker number 2 and neither was sent a signal (the only signal of the whole
execution went to `a`); three children were created for worker 2 against one
termination event for it. -/
theorem stale_handle_restart :
    ∃ (env : Nat → Int) (pid a b c : Int) (k : Nat),
      Function.Injective env ∧ (∀ n, env n ≠ pid) ∧ 2 ≤ k ∧
      (main_startup env 2 pid zeros30).1.pidList.getD k 0 = a ∧
      (main_loop env (main_startup env 2 pid zeros30).1
        ⟨(main_startup env 2 pid zeros30).1.pidList.getD 1 0, 0⟩).2.filterMap Action.killOf
        = [a] ∧
      (main_loop env (main_startup env 2 pid zeros30).1
        ⟨(main_startup env 2 pid zeros30).1.pidList.getD 1 0, 0⟩).1.pidList.getD k 0 = b ∧
      (index (main_loop env (main_startup env 2 pid zeros30).1
        ⟨(main_startup env 2 pid zeros30).1.pidList.getD 1 0, 0⟩).1.pidMap a).1 = k ∧
      (run env (main_startup env 2 pid zeros30).1
        [⟨(main_startup env 2 pid zeros30).1.pidList.getD 1 0, 0⟩, ⟨a, 0⟩]).1.pidList.getD k 0
        = c ∧
      a ≠ b ∧ b ≠ c ∧ a ≠ c ∧
      spawnedFor k ((main_startup env 2 pid zeros30).2 ++
        (run env (main_startup env 2 pid zeros30).1
          [⟨(main_startup env 2 pid zeros30).1.pidList.getD 1 0, 0⟩, ⟨a, 0⟩]).2) = [a, b, c] ∧
      ((main_startup env 2 pid zeros30).2 ++
        (run env (main_startup env 2 pid zeros30).1
          [⟨(main_startup env 2 pid zeros30).1.pidList.getD 1 0, 0⟩, ⟨a, 0⟩]).2).filterMap
        Action.killOf = [a] ∧
      ([(⟨(main_startup env 2 pid zeros30).1.pidList.getD 1 0, 0⟩ : Event), ⟨a, 0⟩].filter
        fun ev => decide (ev.changedPid ∈ [a, b, c])).length + 2 = [a, b, c].length := by
  refine ⟨freshPids, 100, 102, 104, 105, 2, ?_, ?_, ?_, ?_, ?_, ?_, ?_, ?_, ?_, ?_, ?_, ?_, ?_, ?_⟩
  · intro m n h
    simp only [freshPids] at h
    omega
  · intro n
    simp only [freshPids]
    omega
  all_goals decide

end Watchdog
